import Mathlib

/-!
Shallow embedding of the page-level extraction pipeline of `src/app.py`
(Novaex AI excel converter): the Schema Registry (`target_cols`), the
pandas column guard that normalizes heterogeneous per-page JSON replies
into a fixed 16-column table, the tenacity retry wrapper around
`get_llm_extraction`, the sequential page loop with its warning/pacing
behaviour, and the final aggregation (`if all_data: ... else: st.error`).

Conventions of the embedding:
* A parsed JSON object is a `Record`: an association list from string
  keys to `Option String` cell values (`none` models a JSON `null` /
  pandas `NaN` cell, `some s` a string value).
* `pandas.DataFrame(all_data)` column semantics are modelled by
  `dfColumns` (union of the rows' key sets in first-seen order) and by
  cell lookup `(List.lookup k row).join` (missing key or null value both
  give a `NaN` cell, i.e. `none`).
* The external inference service is modelled as an oracle giving, per
  attempt, either a raised exception (`Except.error`) or a raw reply
  text; `json.loads` on the domain of flat string-valued JSON objects is
  modelled by the executable parser `jsonLoadsObj`.
* Waiting (`time.sleep`, tenacity backoff) is modelled by recording the
  wait durations, and the Streamlit UI calls by an event trace.
-/

namespace NovaexApp

/-- The Schema Registry: `target_cols` of `src/app.py` (lines 80-86),
the fixed ordered list of 16 output field names. -/
def target_cols : List String :=
  ["Buyer Name", "Consignee name", "Tax Invoice Number", "Invoice Date",
   "Order", "Place of supply", "Delivery From", "Product",
   "Description of Goods", "Net Wt (MT)", "Transporter",
   "Vehicle Number", "Unit Rate/MT", "Discount/MT",
   "Invoice Value", "Invoice Value with GST"]

/-- A parsed key/value object (one page's parsed JSON reply, or one row
of the final table).  Values are `Option String`: `none` is a missing /
null / NaN cell. -/
abbrev Record := List (String × Option String)

/-- The keys of a record, in order. -/
def keys (r : Record) : List String := r.map Prod.fst

/-- Accumulator version of `dfColumns`: fold the rows, appending each
not-yet-seen key. -/
def dfColumnsAux (acc : List String) : List Record → List String
  | [] => acc
  | row :: rest =>
      dfColumnsAux (acc ++ (keys row).filter (fun k => decide (k ∉ acc))) rest

/-- The columns of `pd.DataFrame(all_data)`: the union of the rows' key
sets in first-seen order (line 88 of `src/app.py`). -/
def dfColumns (rows : List Record) : List String := dfColumnsAux [] rows

/-- The cell of `row` at column `c` in `pd.DataFrame(rows)`: `none`
(NaN) when the key is absent from the row or its value is null. -/
def dfCell (row : Record) (c : String) : Option String :=
  (List.lookup c row).join

/-- The cell at column `c` of the guarded table (lines 89-93 of
`src/app.py`): columns absent from the whole DataFrame are created with
every cell `"Not Found"`; existing columns keep their cells (NaN
included). -/
def guardCell (rows : List Record) (row : Record) (c : String) : Option String :=
  if c ∈ dfColumns rows then dfCell row c else some "Not Found"

/-- One row of the final table: the projection `df = df[target_cols]`
applied after the `"Not Found"` fill (lines 89-93 of `src/app.py`). -/
def guardRow (rows : List Record) (row : Record) : Record :=
  target_cols.map (fun c => (c, guardCell rows row c))

/-- The column guard of `src/app.py` (lines 88-93): build
`pd.DataFrame(all_data)`, add a `"Not Found"` column for each missing
`target_cols` entry, and project to `target_cols`. -/
def columnGuard (rows : List Record) : List Record :=
  rows.map (guardRow rows)

/-! ### `json.loads`, modelled on flat string-valued JSON objects

`get_llm_extraction` (line 44 of `src/app.py`) calls
`json.loads(response.text)` on the raw model reply.  The prompt asks for
a flat JSON object of 16 string fields, so we model `json.loads`
restricted to that fragment: an object `{"k": "v", ...}` whose values
are strings, with JSON whitespace, and string escapes `\"`, `\\`, `\/`.
Any other input (in particular text that does not start with `{` after
whitespace, such as a markdown code fence) fails to parse, exactly as
`json.loads` raises `JSONDecodeError` on it.  (Duplicate keys do not
occur in the inputs we reason about.) -/

/-- JSON whitespace (RFC 8259: space, tab, newline, carriage return). -/
def isJsonWs (c : Char) : Bool :=
  c = ' ' || c = '\n' || c = '\t' || c = '\r'

/-- Drop leading JSON whitespace. -/
def skipWs : List Char → List Char
  | [] => []
  | c :: cs => if isJsonWs c then skipWs cs else c :: cs

/-- Parse the body of a JSON string after the opening quote, up to and
including the closing quote; supports the escapes `\"`, `\\`, `\/`. -/
def parseStringBody : List Char → Option (List Char × List Char)
  | [] => none
  | '"' :: rest => some ([], rest)
  | '\\' :: c :: rest =>
      if c = '"' || c = '\\' || c = '/' then
        match parseStringBody rest with
        | some (s, r) => some (c :: s, r)
        | none => none
      else none
  | c :: rest =>
      match parseStringBody rest with
      | some (s, r) => some (c :: s, r)
      | none => none

/-- Parse a JSON string literal (opening quote included). -/
def parseJString (cs : List Char) : Option (String × List Char) :=
  match cs with
  | '"' :: rest => (parseStringBody rest).map (fun p => (String.mk p.1, p.2))
  | _ => none

/-- Parse the members of a JSON object after the opening brace, up to
and including the closing brace.  `fuel` bounds the number of members
(the input length is always enough). -/
def parseMembers : Nat → List Char → Option (Record × List Char)
  | 0, _ => none
  | fuel + 1, cs =>
    match parseJString (skipWs cs) with
    | none => none
    | some (k, rest) =>
      match skipWs rest with
      | ':' :: rest2 =>
        match parseJString (skipWs rest2) with
        | none => none
        | some (v, rest3) =>
          match skipWs rest3 with
          | ',' :: rest4 =>
            (match parseMembers fuel rest4 with
             | some (ps, r) => some ((k, some v) :: ps, r)
             | none => none)
          | '}' :: rest4 => some ([(k, some v)], rest4)
          | _ => none
      | _ => none

/-- Model of `json.loads` on the flat-object fragment: returns the
parsed key/value record, or `none` where `json.loads` raises. -/
def jsonLoadsObj (s : String) : Option Record :=
  match skipWs s.data with
  | '{' :: rest =>
    (match skipWs rest with
     | '}' :: rest2 => if (skipWs rest2).isEmpty then some [] else none
     | _ =>
       match parseMembers (s.length + 1) rest with
       | some (ps, r) => if (skipWs r).isEmpty then some ps else none
       | none => none)
  | _ => none

/-! ### The extraction client: `get_llm_extraction` under tenacity

`@retry(stop=stop_after_attempt(3), wait=wait_exponential(multiplier=2,
min=10, max=60))` (line 27 of `src/app.py`).  The external service call
is an oracle giving, per 1-based attempt number, either a raised
exception (`Except.error`, covering network/service errors) or the raw
reply text; the attempt body then runs `json.loads` on the text, and a
parse failure raises too (line 44/48).  tenacity sleeps
`wait_exponential(...)` of the just-failed attempt's number between
attempts, and after the configured number of attempts is exhausted the
failure propagates to the caller (as a `RetryError` wrapping the last
attempt; we record the last attempt's message). -/

/-- tenacity's `wait_exponential(multiplier, min, max)` evaluated at a
1-based attempt number: `multiplier * 2^n` clamped into `[min, max]`. -/
def wait_exponential (multiplier mn mx n : Nat) : Nat :=
  Nat.max mn (Nat.min (multiplier * 2 ^ n) mx)

/-- The wait configured on line 27: `wait_exponential(multiplier=2,
min=10, max=60)`. -/
def retryWait (n : Nat) : Nat := wait_exponential 2 10 60 n

/-- One attempt of the body of `get_llm_extraction`: call the service,
then `json.loads` the reply (lines 38-48 of `src/app.py`). -/
def attemptBody (oracle : Nat → Except String String) (n : Nat) :
    Except String Record :=
  match oracle n with
  | .error e => .error e
  | .ok txt =>
    match jsonLoadsObj txt with
    | some rec => .ok rec
    | none => .error "JSONDecodeError"

/-- Result of a retried call: the final result, the backoff waits slept
between attempts, and how many attempts were made. -/
structure RetryOutcome where
  result : Except String Record
  waits : List Nat
  attempts : Nat
  deriving Repr

/-- tenacity's retry loop from attempt `n` with `remaining` attempts
still allowed (`stop_after_attempt` semantics: stop, and let the error
propagate, once the failed attempt count reaches the bound). -/
def retryFrom (body : Nat → Except String Record) (n : Nat) :
    Nat → RetryOutcome
  | 0 => { result := .error "stopped before any attempt", waits := [], attempts := 0 }
  | remaining + 1 =>
    match body n with
    | .ok r => { result := .ok r, waits := [], attempts := 1 }
    | .error e =>
      if remaining = 0 then { result := .error e, waits := [], attempts := 1 }
      else
        let rest := retryFrom body (n + 1) remaining
        { result := rest.result, waits := retryWait n :: rest.waits,
          attempts := rest.attempts + 1 }

/-- Model of `get_llm_extraction` of `src/app.py` (lines 27-48): the
attempt body under `stop_after_attempt(3)` with the line-27 backoff. -/
def get_llm_extraction (oracle : Nat → Except String String) : RetryOutcome :=
  retryFrom (attemptBody oracle) 1 3

/-! ### The page loop (lines 61-76 of `src/app.py`)

The loop is driven by the per-page results of `get_llm_extraction`
(each already past its internal retries), given as a list
`rs : List (Except String Record)` — `.ok rec` when the call returned a
parsed object, `.error e` when it raised.  We record the observable
behaviour as an event trace (service call, success message + progress,
warning, `time.sleep`) alongside the conceptual per-page outcomes. -/

/-- An observable step of the page loop. -/
inductive Event where
  | extractCall (page : Nat)
  | pageDone (page : Nat)
  | warn (page : Nat) (msg : String)
  | sleep (seconds : Nat)
  deriving DecidableEq, Repr

/-- Truncation to the first 50 characters, the `str(e)[:50]` of line 76
(Python slices strings by code point, as `String.data` does). -/
def take50 (e : String) : String := String.mk (e.data.take 50)

/-- The `st.warning` text of line 76, for 0-based page `i` and raised
error text `e` (note the `str(e)[:50]` truncation). -/
def pageWarnMsg (i : Nat) (e : String) : String :=
  "⚠️ Page " ++ toString (i + 1) ++
    " was skipped due to API Rate Limits. (Details: " ++ take50 e ++ "...)"

/-- Conceptual per-page outcome: the record appended to `all_data`, or
the page-local failure with its 0-based index and truncated reason. -/
inductive PageOutcome where
  | success (rec : Record)
  | failure (page : Nat) (reason : String)
  deriving DecidableEq, Repr

/-- The events of one iteration of the loop body (lines 65-76): call the
client; on success write the page message, update progress and — when
the document has more than one page — `time.sleep(5)`; on an exception
emit the warning and continue. -/
def pageEvents (total i : Nat) : Except String Record → List Event
  | .ok _ =>
      [.extractCall i, .pageDone i] ++ (if 1 < total then [.sleep 5] else [])
  | .error e => [.extractCall i, .warn i (pageWarnMsg i e)]

/-- The conceptual outcome of page `i` from its extraction result. -/
def pageOutcome (i : Nat) : Except String Record → PageOutcome
  | .ok r => .success r
  | .error e => .failure i (take50 e)

/-- The loop from 0-based page index `i` on the remaining results:
accumulates the event trace and the outcome sequence in page order. -/
def loopAux (total : Nat) (i : Nat) :
    List (Except String Record) → List Event × List PageOutcome
  | [] => ([], [])
  | r :: rest =>
    let tail := loopAux total (i + 1) rest
    (pageEvents total i r ++ tail.1, pageOutcome i r :: tail.2)

/-- The event trace of the whole loop over a document's pages. -/
def runTrace (rs : List (Except String Record)) : List Event :=
  (loopAux rs.length 0 rs).1

/-- The per-page outcome sequence of the whole loop. -/
def outcomes (rs : List (Except String Record)) : List PageOutcome :=
  (loopAux rs.length 0 rs).2

/-- The list `all_data` after the loop: the successful pages, in page
order (the `all_data.append` of line 67). -/
def all_data (rs : List (Except String Record)) : List Record :=
  (outcomes rs).filterMap fun o =>
    match o with
    | .success r => some r
    | .failure _ _ => none

/-! ### Aggregation (lines 79-102 of `src/app.py`) -/

/-- The run-level failure of the `else` branch (line 102). -/
inductive RunError where
  | emptyResult
  deriving DecidableEq, Repr

/-- The `st.error` text of line 102, shown when `all_data` is empty. -/
def emptyResultMsg : String :=
  "No data extracted. Your API quota might be exhausted for today."

/-- The run's final status: `if all_data:` build and show the guarded
table, `else` signal the empty result (lines 79-102). -/
def runResult (rs : List (Except String Record)) :
    Except RunError (List Record) :=
  match all_data rs with
  | [] => .error .emptyResult
  | _ :: _ => .ok (columnGuard (all_data rs))

/-! ### Helper predicates used by the statements -/

/-- Is this event a `time.sleep`? -/
def isSleep : Event → Bool
  | .sleep _ => true
  | _ => false

/-- Is this event the success message of a page? -/
def isDone : Event → Bool
  | .pageDone _ => true
  | _ => false

/-- Did this page's extraction call return normally? -/
def isOkExc : Except String Record → Bool
  | .ok _ => true
  | .error _ => false

/-- Is this outcome a `success`? -/
def isSuccess : PageOutcome → Bool
  | .success _ => true
  | .failure _ _ => false

/-- Every `sleep` in the list is immediately preceded by a page-success
message (`prev` is the event just before the list's head). -/
def sleepsAfterDone : Option Event → List Event → Bool
  | _, [] => true
  | prev, e :: rest =>
      (!(isSleep e) ||
        (match prev with
         | some p => isDone p
         | none => false)) &&
      sleepsAfterDone (some e) rest

/-- The number of `time.sleep` events in a trace. -/
def countSleeps (es : List Event) : Nat := (es.filter isSleep).length

/-- The number of pages whose extraction call returned normally. -/
def countOk (rs : List (Except String Record)) : Nat :=
  (rs.filter isOkExc).length

/-! ### Concrete example inputs used by counterexamples and witnesses -/

/-- Two parsed page replies with different key sets: page 1 returned
only `Buyer Name`, page 2 only `Product`. -/
def c1Rows : List Record :=
  [[("Buyer Name", some "Z")], [("Product", some "A")]]

/-- The raw reply of the spec scenario, wrapped in a markdown code
fence. -/
def fencedReply : String := "```json\n\x7b\"Product\":\"Alloy\"\x7d\n```"

/-- The same reply without the fence markers. -/
def plainReply : String := "\x7b\"Product\":\"Alloy\"\x7d"

/-! ### Supporting lemmas -/

lemma lookup_map_self (g : String → Option String) :
    ∀ (l : List String) (c : String), c ∈ l →
      List.lookup c (l.map (fun x => (x, g x))) = some (g c) := by
  intro l
  induction l with
  | nil => intro c hc; cases hc
  | cons a l ih =>
    intro c hc
    by_cases h : c = a
    · subst h; simp [List.lookup]
    · rcases List.mem_cons.mp hc with h2 | h2
      · exact absurd h2 h
      · have hb : (c == a) = false := by simp [h]
        simp [List.lookup, hb, ih c h2]

lemma keys_guardRow (rows : List Record) (row : Record) :
    keys (guardRow rows row) = target_cols := rfl

lemma lookup_eq_none_of_not_mem_keys (c : String) :
    ∀ r : Record, c ∉ keys r → List.lookup c r = none := by
  intro r
  induction r with
  | nil => intro _; rfl
  | cons p rest ih =>
    intro h
    obtain ⟨a, b⟩ := p
    have hca : c ≠ a := fun he => h (by simp [keys, he])
    have hcr : c ∉ keys rest := fun hm => h (by simp [keys]; exact Or.inr (by simpa [keys] using hm))
    have hb : (c == a) = false := by simp [hca]
    simp [List.lookup, hb, ih hcr]

lemma mem_dfColumnsAux (c : String) :
    ∀ (rows : List Record) (acc : List String),
      c ∈ dfColumnsAux acc rows ↔ c ∈ acc ∨ ∃ row ∈ rows, c ∈ keys row := by
  intro rows
  induction rows with
  | nil => intro acc; simp [dfColumnsAux]
  | cons row rest ih =>
    intro acc
    rw [dfColumnsAux, ih]
    simp [List.mem_append, List.mem_filter]
    tauto

lemma mem_dfColumns (c : String) (rows : List Record) :
    c ∈ dfColumns rows ↔ ∃ row ∈ rows, c ∈ keys row := by
  rw [dfColumns, mem_dfColumnsAux]
  simp

lemma dfCell_guardRow (rows : List Record) (row : Record) (c : String)
    (hc : c ∈ target_cols) :
    dfCell (guardRow rows row) c = guardCell rows row c := by
  unfold dfCell guardRow
  rw [lookup_map_self (fun x => guardCell rows row x) target_cols c hc]
  rfl

lemma loopAux_snd_length (total : Nat) :
    ∀ (rs : List (Except String Record)) (i : Nat),
      ((loopAux total i rs).2).length = rs.length := by
  intro rs
  induction rs with
  | nil => intro i; rfl
  | cons r rest ih => intro i; simp [loopAux, ih]

lemma loopAux_snd_get (total : Nat) :
    ∀ (rs : List (Except String Record)) (i k : Nat),
      ((loopAux total i rs).2)[k]? =
        (rs[k]?).map (fun r => pageOutcome (i + k) r) := by
  intro rs
  induction rs with
  | nil => intro i k; simp [loopAux]
  | cons r rest ih =>
    intro i k
    cases k with
    | zero => simp [loopAux]
    | succ k =>
      have h : i + (k + 1) = (i + 1) + k := by omega
      simp [loopAux, h, ih (i + 1) k]

lemma countSleeps_append (a b : List Event) :
    countSleeps (a ++ b) = countSleeps a + countSleeps b := by
  simp [countSleeps, List.filter_append]

lemma countSleeps_pageEvents (total i : Nat) (r : Except String Record) :
    countSleeps (pageEvents total i r) =
      if 1 < total ∧ isOkExc r = true then 1 else 0 := by
  cases r <;> by_cases h : 1 < total <;>
    simp [pageEvents, countSleeps, isSleep, isOkExc, h]

lemma countSleeps_loopAux (total : Nat) :
    ∀ (rs : List (Except String Record)) (i : Nat),
      countSleeps ((loopAux total i rs).1) =
        if 1 < total then countOk rs else 0 := by
  intro rs
  induction rs with
  | nil => intro i; simp [loopAux, countSleeps, countOk]
  | cons r rest ih =>
    intro i
    show countSleeps (pageEvents total i r ++ (loopAux total (i + 1) rest).1) = _
    rw [countSleeps_append, countSleeps_pageEvents, ih (i + 1)]
    by_cases h : 1 < total
    · cases r with
      | ok rec =>
        simp [isOkExc, h, countOk, List.filter_cons]
        omega
      | error e => simp [isOkExc, h, countOk, List.filter_cons]
    · simp [h]

lemma sleepsAfterDone_loopAux (total : Nat) :
    ∀ (rs : List (Except String Record)) (i : Nat) (prev : Option Event),
      sleepsAfterDone prev ((loopAux total i rs).1) = true := by
  intro rs
  induction rs with
  | nil => intro i prev; rfl
  | cons r rest ih =>
    intro i prev
    cases r with
    | ok rec =>
      by_cases h : 1 < total <;>
        simp [loopAux, pageEvents, h, sleepsAfterDone, isSleep, isDone, ih]
    | error e =>
      simp [loopAux, pageEvents, sleepsAfterDone, isSleep, isDone, ih]

lemma loopAux_fst_getLast (total : Nat) (h : 1 < total) :
    ∀ (pre : List (Except String Record)) (i : Nat) (rec : Record),
      ((loopAux total i (pre ++ [Except.ok rec])).1).getLast? =
        some (Event.sleep 5) := by
  intro pre
  induction pre with
  | nil => intro i rec; simp [loopAux, pageEvents, h]
  | cons r rest ih =>
    intro i rec
    rw [List.cons_append, loopAux]
    rw [List.getLast?_append, ih (i + 1) rec]
    rfl

lemma all_data_eq_nil_iff (rs : List (Except String Record)) :
    all_data rs = [] ↔ ∀ o ∈ outcomes rs, isSuccess o = false := by
  rw [all_data, List.filterMap_eq_nil_iff]
  constructor
  · intro h o ho
    have := h o ho
    cases o <;> simp_all [isSuccess]
  · intro h o ho
    have := h o ho
    cases o <;> simp_all [isSuccess]

lemma retryFrom_attempts_le (body : Nat → Except String Record) :
    ∀ (m n : Nat), (retryFrom body n m).attempts ≤ m := by
  intro m
  induction m with
  | zero => intro n; simp [retryFrom]
  | succ m ih =>
    intro n
    cases hb : body n with
    | ok r => simp [retryFrom, hb]
    | error e =>
      by_cases h : m = 0
      · simp [retryFrom, hb, h]
      · simp [retryFrom, hb, h]
        exact ih (n + 1)

lemma guardRow_columnGuard (r0 : Record) (rest : List Record) (row : Record) :
    guardRow (columnGuard (r0 :: rest)) (guardRow (r0 :: rest) row) =
      guardRow (r0 :: rest) row := by
  have hhead : guardRow (r0 :: rest) r0 ∈ columnGuard (r0 :: rest) :=
    List.mem_map_of_mem _ (List.mem_cons_self r0 rest)
  show List.map
      (fun c => (c, guardCell (columnGuard (r0 :: rest)) (guardRow (r0 :: rest) row) c))
      target_cols
    = List.map (fun c => (c, guardCell (r0 :: rest) row c)) target_cols
  apply List.map_congr_left
  intro c hc
  have hmem : c ∈ dfColumns (columnGuard (r0 :: rest)) :=
    (mem_dfColumns c _).mpr ⟨_, hhead, by rw [keys_guardRow]; exact hc⟩
  have h1 : guardCell (columnGuard (r0 :: rest)) (guardRow (r0 :: rest) row) c
      = dfCell (guardRow (r0 :: rest) row) c := by
    unfold guardCell
    rw [if_pos hmem]
  rw [h1, dfCell_guardRow _ _ _ hc]

/-! ### The claims -/

/-- C9: the column guard (the normalization step of `src/app.py` lines
88-93) is idempotent on its own output: re-feeding the guarded table
through the guard returns it unchanged. -/
theorem C9_columnGuard_idempotent :
    ∀ rows : List Record, columnGuard (columnGuard rows) = columnGuard rows := by
  intro rows
  cases rows with
  | nil => rfl
  | cons r0 rest =>
    show (columnGuard (r0 :: rest)).map (guardRow (columnGuard (r0 :: rest)))
        = columnGuard (r0 :: rest)
    conv_rhs => rw [← List.map_id (columnGuard (r0 :: rest))]
    apply List.map_congr_left
    intro orow ho
    rcases List.mem_map.mp ho with ⟨row, _, rfl⟩
    exact guardRow_columnGuard r0 rest row

/-- C1, counterexample: in a run with two parsed replies of different
key sets, the registry field `Buyer Name` is absent from the second
reply, yet the second row of the final table carries a NaN cell
(`none`) for it, not the sentinel `"Not Found"` the claim requires. -/
theorem C1_counterexample :
    "Buyer Name" ∈ target_cols ∧
    "Buyer Name" ∉ keys [("Product", some "A")] ∧
    (columnGuard c1Rows)[1]? = some (guardRow c1Rows [("Product", some "A")]) ∧
    dfCell (guardRow c1Rows [("Product", some "A")]) "Buyer Name" = none := by
  refine ⟨by decide, by decide, rfl, rfl⟩

/-- C1, amended: every final-table record has exactly the 16 registry
keys in registry order and non-registry keys are dropped, but the
`"Not Found"` sentinel is only given to registry fields absent from
EVERY reply of the run; a field absent from this reply but present in
some other reply yields a NaN cell (`none`), and a field present in the
reply keeps its value. -/
theorem C1_amended (rows : List Record) (row : Record) (hrow : row ∈ rows) :
    keys (guardRow rows row) = target_cols ∧
    (∀ c ∈ target_cols, (∀ r ∈ rows, c ∉ keys r) →
      dfCell (guardRow rows row) c = some "Not Found") ∧
    (∀ c ∈ target_cols, c ∉ keys row → (∃ r ∈ rows, c ∈ keys r) →
      dfCell (guardRow rows row) c = none) ∧
    (∀ c ∈ target_cols, c ∈ keys row →
      dfCell (guardRow rows row) c = dfCell row c) := by
  refine ⟨keys_guardRow rows row, ?_, ?_, ?_⟩
  · intro c hc habs
    have hnd : c ∉ dfColumns rows := by
      intro hmem
      rcases (mem_dfColumns c rows).mp hmem with ⟨r, hr, hcr⟩
      exact habs r hr hcr
    rw [dfCell_guardRow _ _ _ hc]
    unfold guardCell
    rw [if_neg hnd]
  · intro c hc hnot hex
    rw [dfCell_guardRow _ _ _ hc]
    unfold guardCell
    rw [if_pos ((mem_dfColumns c rows).mpr hex)]
    unfold dfCell
    rw [lookup_eq_none_of_not_mem_keys c row hnot]
    rfl
  · intro c hc hmem
    rw [dfCell_guardRow _ _ _ hc]
    unfold guardCell
    rw [if_pos ((mem_dfColumns c rows).mpr ⟨row, hrow, hmem⟩)]

/-- C1, witness for the amended claim at the concrete two-reply run. -/
theorem C1_amended_witness :
    keys (guardRow c1Rows [("Product", some "A")]) = target_cols ∧
    dfCell (guardRow c1Rows [("Product", some "A")]) "Order" = some "Not Found" ∧
    dfCell (guardRow c1Rows [("Product", some "A")]) "Buyer Name" = none ∧
    dfCell (guardRow c1Rows [("Product", some "A")]) "Product" = some "A" := by
  obtain ⟨h1, h2, h3, h4⟩ := C1_amended c1Rows [("Product", some "A")] (by decide)
  refine ⟨h1, ?_, ?_, ?_⟩
  · exact h2 "Order" (by decide) (by decide)
  · exact h3 "Buyer Name" (by decide) (by decide)
      ⟨[("Buyer Name", some "Z")], by decide, by decide⟩
  · rw [h4 "Product" (by decide) (by decide)]
    rfl

/-- C10: the sentinel fill is per column across the whole run — a
registry field absent from every reply becomes `"Not Found"` in every
row, while a field present in at least one reply and absent from
another is left as a NaN cell (`none`), not `"Not Found"`, in the rows
that lack it. -/
theorem C10_columnwise_sentinel (rows : List Record) (c : String)
    (hc : c ∈ target_cols) :
    ((∀ r ∈ rows, c ∉ keys r) →
      ∀ row ∈ rows, dfCell (guardRow rows row) c = some "Not Found") ∧
    ((∃ r ∈ rows, c ∈ keys r) →
      ∀ row ∈ rows, c ∉ keys row → dfCell (guardRow rows row) c = none) := by
  constructor
  · intro habs row _
    have hnd : c ∉ dfColumns rows := by
      intro hmem
      rcases (mem_dfColumns c rows).mp hmem with ⟨r, hr, hcr⟩
      exact habs r hr hcr
    rw [dfCell_guardRow _ _ _ hc]
    unfold guardCell
    rw [if_neg hnd]
  · intro hex row _ hnot
    rw [dfCell_guardRow _ _ _ hc]
    unfold guardCell
    rw [if_pos ((mem_dfColumns c rows).mpr hex)]
    unfold dfCell
    rw [lookup_eq_none_of_not_mem_keys c row hnot]
    rfl

/-- C10, witness: in the concrete two-reply run, `Buyer Name` (present
in reply 1 only) is NaN in row 2, and `Tax Invoice Number` (absent
everywhere) is `"Not Found"` in row 1. -/
theorem C10_witness :
    dfCell (guardRow c1Rows [("Product", some "A")]) "Buyer Name" = none ∧
    dfCell (guardRow c1Rows [("Buyer Name", some "Z")]) "Tax Invoice Number"
      = some "Not Found" := by
  refine ⟨?_, ?_⟩
  · exact (C10_columnwise_sentinel c1Rows "Buyer Name" (by decide)).2
      ⟨[("Buyer Name", some "Z")], by decide, by decide⟩
      [("Product", some "A")] (by decide) (by decide)
  · exact (C10_columnwise_sentinel c1Rows "Tax Invoice Number" (by decide)).1
      (by decide) [("Buyer Name", some "Z")] (by decide)

/-- C2: when page `k` fails (its retried call raises) and every other
page succeeds, the run is not aborted — the outcome sequence still
covers every page, outcome `k` is a failure carrying the page index and
the truncated error summary, and every other page is a success. -/
theorem C2_page_isolation (rs : List (Except String Record)) (k : Nat) (e : String)
    (hk : rs[k]? = some (Except.error e))
    (hothers : ∀ j, j ≠ k → ∀ r, rs[j]? = some r → isOkExc r = true) :
    (outcomes rs).length = rs.length ∧
    (outcomes rs)[k]? = some (PageOutcome.failure k (take50 e)) ∧
    (∀ j, j ≠ k → ∀ r, rs[j]? = some r →
      ∃ rec, (outcomes rs)[j]? = some (PageOutcome.success rec)) := by
  refine ⟨loopAux_snd_length rs.length rs 0, ?_, ?_⟩
  · rw [outcomes, loopAux_snd_get rs.length rs 0 k, hk]
    simp [pageOutcome]
  · intro j hj r hr
    have hok := hothers j hj r hr
    rw [outcomes, loopAux_snd_get rs.length rs 0 j, hr]
    cases r with
    | ok rec => exact ⟨rec, by simp [pageOutcome]⟩
    | error e2 => simp [isOkExc] at hok

/-- C2, witness: a 3-page run whose middle page fails on all attempts
keeps both sibling successes and records `Failure 1 "boom"`. -/
theorem C2_witness :
    (outcomes [Except.ok ([] : Record), Except.error "boom",
      Except.ok ([] : Record)]).length = 3 ∧
    (outcomes [Except.ok ([] : Record), Except.error "boom",
      Except.ok ([] : Record)])[1]? = some (PageOutcome.failure 1 "boom") ∧
    ∃ rec, (outcomes [Except.ok ([] : Record), Except.error "boom",
      Except.ok ([] : Record)])[2]? = some (PageOutcome.success rec) := by
  have hothers : ∀ j, j ≠ 1 → ∀ r,
      ([Except.ok [], Except.error "boom", Except.ok []] :
        List (Except String Record))[j]? = some r → isOkExc r = true := by
    intro j hj r hr
    rcases j with _ | _ | _ | j
    · simp at hr
      rw [← hr]
      rfl
    · exact absurd rfl hj
    · simp at hr
      rw [← hr]
      rfl
    · simp at hr
  obtain ⟨h1, h2, h3⟩ :=
    C2_page_isolation [Except.ok [], Except.error "boom", Except.ok []] 1 "boom"
      rfl hothers
  exact ⟨h1, h2, h3 2 (by decide) (Except.ok []) rfl⟩

/-- C5: the outcome sequence has the length of the page sequence, its
`k`-th element is the `k`-th page's outcome (a success carrying that
page's record, or a failure carrying index `k` and the truncated
reason), and every element is exactly one of success or failure. -/
theorem C5_outcome_shape (rs : List (Except String Record)) :
    (outcomes rs).length = rs.length ∧
    (∀ (k : Nat) (rec : Record), rs[k]? = some (Except.ok rec) →
      (outcomes rs)[k]? = some (PageOutcome.success rec)) ∧
    (∀ (k : Nat) (e : String), rs[k]? = some (Except.error e) →
      (outcomes rs)[k]? = some (PageOutcome.failure k (take50 e))) ∧
    (∀ o ∈ outcomes rs, (∃ rec, o = PageOutcome.success rec) ∨
      ∃ i msg, o = PageOutcome.failure i msg) := by
  refine ⟨loopAux_snd_length rs.length rs 0, ?_, ?_, ?_⟩
  · intro k rec hk
    rw [outcomes, loopAux_snd_get rs.length rs 0 k, hk]
    simp [pageOutcome]
  · intro k e hk
    rw [outcomes, loopAux_snd_get rs.length rs 0 k, hk]
    simp [pageOutcome]
  · intro o _
    cases o with
    | success rec => exact Or.inl ⟨rec, rfl⟩
    | failure i msg => exact Or.inr ⟨i, msg, rfl⟩

/-- C5, witness at a concrete success-then-failure run. -/
theorem C5_witness :
    (outcomes [Except.ok ([("k", some "v")] : Record), Except.error "x"]).length = 2 ∧
    (outcomes [Except.ok ([("k", some "v")] : Record), Except.error "x"])[0]?
      = some (PageOutcome.success [("k", some "v")]) ∧
    (outcomes [Except.ok ([("k", some "v")] : Record), Except.error "x"])[1]?
      = some (PageOutcome.failure 1 "x") := by
  obtain ⟨h1, h2, h3, _⟩ :=
    C5_outcome_shape [Except.ok [("k", some "v")], Except.error "x"]
  exact ⟨h1, h2 0 [("k", some "v")] rfl, h3 1 "x" rfl⟩

/-- C6: the run signals the empty result exactly when no page outcome
is a success (all-failure or no pages at all); the outcome sequence it
is judged on covers every page, and the empty-result message is
distinct from every per-page warning message. -/
theorem C6_empty_result (rs : List (Except String Record)) :
    (runResult rs = Except.error RunError.emptyResult ↔
      ∀ o ∈ outcomes rs, isSuccess o = false) ∧
    (outcomes rs).length = rs.length ∧
    (∀ i e, pageWarnMsg i e ≠ emptyResultMsg) := by
  refine ⟨?_, loopAux_snd_length rs.length rs 0, ?_⟩
  · rw [← all_data_eq_nil_iff]
    unfold runResult
    rcases h : all_data rs with _ | ⟨r, rest⟩ <;> simp [h]
  · intro i e h
    have h1 : (pageWarnMsg i e).data.head? = some '⚠' := by
      unfold pageWarnMsg
      simp only [String.data_append]
      rfl
    have h2 : emptyResultMsg.data.head? = some 'N' := rfl
    rw [h] at h1
    exact absurd (h2.symm.trans h1) (by decide)

/-- C6, witness: an all-failure 2-page run signals the empty result,
whose message differs from the page-1 warning. -/
theorem C6_witness :
    runResult [Except.error "a", Except.error "b"]
      = Except.error RunError.emptyResult ∧
    pageWarnMsg 0 "a" ≠ emptyResultMsg := by
  obtain ⟨hiff, _, hmsg⟩ := C6_empty_result [Except.error "a", Except.error "b"]
  exact ⟨hiff.mpr (by decide), hmsg 0 "a"⟩

/-- C3: any failing attempt (service error or non-JSON reply) is
retried with a backoff wait, at most 3 attempts are ever made, and when
the final attempt also fails the error propagates as the page's
terminal failure instead of being swallowed. -/
theorem C3_retry_policy (oracle : Nat → Except String String) :
    (get_llm_extraction oracle).attempts ≤ 3 ∧
    (∀ e1 r, attemptBody oracle 1 = Except.error e1 →
      attemptBody oracle 2 = Except.ok r →
      (get_llm_extraction oracle).result = Except.ok r ∧
      (get_llm_extraction oracle).waits = [retryWait 1]) ∧
    (∀ e1 e2 e3,
      attemptBody oracle 1 = Except.error e1 →
      attemptBody oracle 2 = Except.error e2 →
      attemptBody oracle 3 = Except.error e3 →
      (get_llm_extraction oracle).result = Except.error e3 ∧
      (get_llm_extraction oracle).attempts = 3 ∧
      (get_llm_extraction oracle).waits = [retryWait 1, retryWait 2]) := by
  refine ⟨retryFrom_attempts_le (attemptBody oracle) 3 1, ?_, ?_⟩
  · intro e1 r h1 h2
    constructor <;> simp [get_llm_extraction, retryFrom, h1, h2]
  · intro e1 e2 e3 h1 h2 h3
    refine ⟨?_, ?_, ?_⟩ <;> simp [get_llm_extraction, retryFrom, h1, h2, h3]

/-- C3, witness: an always-failing oracle makes exactly 3 attempts,
sleeps twice, and the last error propagates. -/
theorem C3_witness :
    (get_llm_extraction (fun _ => Except.error "quota")).attempts ≤ 3 ∧
    (get_llm_extraction (fun _ => Except.error "quota")).result
      = Except.error "quota" ∧
    (get_llm_extraction (fun _ => Except.error "quota")).waits
      = [retryWait 1, retryWait 2] := by
  obtain ⟨h1, _, h3⟩ := C3_retry_policy (fun _ => Except.error "quota")
  obtain ⟨ha, _, hc⟩ := h3 "quota" "quota" "quota" rfl rfl rfl
  exact ⟨h1, ha, hc⟩

/-- C8, counterexample: with every attempt failing, the two observed
backoff waits are both 10 — the wait before the third attempt is 10,
not at least 20 as the claim requires (the configured minimum of 10
clamps `2 * 2^n`, which never exceeds 8 within three attempts). -/
theorem C8_counterexample :
    (get_llm_extraction (fun _ => Except.error "quota failure")).waits = [10, 10] ∧
    ¬ 20 ≤ (get_llm_extraction (fun _ => Except.error "quota failure")).waits.getD 1 0 := by
  exact ⟨rfl, by decide⟩

/-- C8, amended: on two consecutive failed attempts the observed waits
are both exactly 10 time units (each at least the configured minimum
10), and the configured wait schedule is monotonically non-decreasing
and bounded above by the configured maximum 60. -/
theorem C8_amended (oracle : Nat → Except String String) (e1 e2 : String)
    (h1 : attemptBody oracle 1 = Except.error e1)
    (h2 : attemptBody oracle 2 = Except.error e2) :
    (get_llm_extraction oracle).waits = [10, 10] ∧
    (∀ n, 10 ≤ retryWait n ∧ retryWait n ≤ 60 ∧ retryWait n ≤ retryWait (n + 1)) := by
  constructor
  · cases h3 : attemptBody oracle 3 <;>
      simp [get_llm_extraction, retryFrom, h1, h2, h3, retryWait, wait_exponential]
  · intro n
    simp only [retryWait, wait_exponential]
    refine ⟨Nat.le_max_left _ _, ?_, ?_⟩
    · exact Nat.max_le.mpr ⟨by norm_num, Nat.min_le_right _ _⟩
    · exact max_le_max (le_refl 10)
        (min_le_min
          (Nat.mul_le_mul (le_refl 2)
            (Nat.pow_le_pow_right (by norm_num) (Nat.le_succ n)))
          (le_refl 60))

/-- C8, witness for the amended claim at an always-failing oracle. -/
theorem C8_amended_witness :
    (get_llm_extraction (fun _ => Except.error "boom")).waits = [10, 10] ∧
    10 ≤ retryWait 1 ∧ retryWait 1 ≤ 60 ∧ retryWait 1 ≤ retryWait 2 := by
  obtain ⟨hw, hb⟩ := C8_amended (fun _ => Except.error "boom") "boom" "boom" rfl rfl
  exact ⟨hw, (hb 1).1, (hb 1).2.1, (hb 1).2.2⟩

/-- C4, counterexample: no fence-stripping is performed — `json.loads`
on the code-fenced reply fails (it does not normalize at all, let alone
to the unwrapped result), while the unwrapped reply parses. -/
theorem C4_counterexample :
    jsonLoadsObj fencedReply = none ∧
    jsonLoadsObj plainReply = some [("Product", some "Alloy")] := ⟨rfl, rfl⟩

/-- C4, amended: a code-fenced reply is never stripped: it fails JSON
parsing, the failure is retryable, and when every attempt returns the
fenced text the page's extraction terminally fails after 3 attempts —
while the same JSON without fences extracts its record on the first
attempt. -/
theorem C4_amended :
    (get_llm_extraction (fun _ => Except.ok fencedReply)).result
      = Except.error "JSONDecodeError" ∧
    (get_llm_extraction (fun _ => Except.ok fencedReply)).attempts = 3 ∧
    (get_llm_extraction (fun _ => Except.ok plainReply)).result
      = Except.ok [("Product", some "Alloy")] ∧
    (get_llm_extraction (fun _ => Except.ok plainReply)).attempts = 1 :=
  ⟨rfl, rfl, rfl, rfl⟩

/-- C7, counterexample: for a two-page document where both pages
succeed, the trace ends with a `time.sleep(5)` *after the final page* —
the pacing delay is not restricted to occurring before a next request,
contrary to the claim. -/
theorem C7_counterexample :
    runTrace [Except.ok ([] : Record), Except.ok ([] : Record)] =
      [Event.extractCall 0, Event.pageDone 0, Event.sleep 5,
       Event.extractCall 1, Event.pageDone 1, Event.sleep 5] ∧
    (runTrace [Except.ok ([] : Record), Except.ok ([] : Record)]).getLast?
      = some (Event.sleep 5) := ⟨rfl, rfl⟩

/-- C7, amended: the fixed 5-second pacing delay runs after each
*successful* page exactly when the document has more than one page —
including after the final page — and never after a failed page; each
sleep immediately follows a page-success message (so it is separate
from the retry backoff inside the extraction client, which our trace
does not even contain). -/
theorem C7_amended (rs : List (Except String Record)) :
    countSleeps (runTrace rs) = (if 1 < rs.length then countOk rs else 0) ∧
    sleepsAfterDone none (runTrace rs) = true ∧
    (∀ (pre : List (Except String Record)) (rec : Record),
      rs = pre ++ [Except.ok rec] → 1 < rs.length →
      (runTrace rs).getLast? = some (Event.sleep 5)) := by
  refine ⟨countSleeps_loopAux rs.length rs 0,
    sleepsAfterDone_loopAux rs.length rs 0 none, ?_⟩
  intro pre rec hrs hlen
  subst hrs
  exact loopAux_fst_getLast _ hlen pre 0 rec

/-- C7, witness for the amended claim: a success-then-failure run
sleeps exactly once (after the success, not the failure), and a run
ending in a success ends its trace with the sleep. -/
theorem C7_amended_witness :
    countSleeps (runTrace [Except.ok ([("k", some "v")] : Record),
      Except.error "e"]) = 1 ∧
    sleepsAfterDone none (runTrace [Except.ok ([("k", some "v")] : Record),
      Except.error "e"]) = true ∧
    (runTrace [Except.error "e", Except.ok ([] : Record)]).getLast?
      = some (Event.sleep 5) := by
  obtain ⟨h1, h2, _⟩ := C7_amended [Except.ok [("k", some "v")], Except.error "e"]
  obtain ⟨_, _, h3⟩ := C7_amended [Except.error "e", Except.ok []]
  exact ⟨h1.trans (by decide), h2, h3 [Except.error "e"] [] rfl (by decide)⟩

end NovaexApp



